import Mathlib

/-!
# OpenMW: terrain world interface, cell renderer and launcher dialog

Shallow embedding of

* `components/terrain/world.hpp` (the base `Terrain::World` interface),
* `game/mwrender/cell.cpp` (`MWRender::CellRender`),
* `apps/launcher/maindialog.cpp` (`MainDialog::changePage`),

together with the properties proved about them.

Conventions.  Pointers are `Option` handles (`none` is `NULL`).  Objects that
live behind pointers are kept in explicit stores that are threaded through the
operations.  A C++ `float` is carried as its 32 bit IEEE-754 pattern (`Float32`);
no rounding arithmetic is performed on these patterns.  Quaternions are kept as
the expressions that build them, and `Quaternion.toExact` gives such an
expression its value in exact arithmetic.
-/

/-- An IEEE-754 single precision value, carried as its bit pattern. -/
abbrev Float32 := Nat

namespace Terrain

/-- The type `osg::Vec3f`: three single precision components. -/
structure Vec3f where
  x : Float32
  y : Float32
  z : Float32
deriving DecidableEq, Repr

/-- Handle of an `osg::Node` / `osg::Group` in the scene graph store. -/
abbrev NodeRef := Nat

/-- An `osg::Group`: a node mask and the ordered list of its children. -/
structure Group where
  nodeMask : Int
  children : List NodeRef
deriving DecidableEq, Repr

/-- Handle of a `Terrain::View` (`View*`). -/
abbrev ViewRef := Nat

/-! ## Chunk cache (the `ChunkManager` behind `World::mChunkManager`) -/

/-- Modelled from the spec: the Region Key of section 3 (the `ChunkManager` class
is only forward-declared in `world.hpp`).  Integer cell coordinates plus a
level-of-detail index; two keys are equal iff coordinates and LOD match. -/
structure RegionKey where
  x : Int
  y : Int
  lod : Nat
deriving DecidableEq, Repr

/-- Modelled from the spec: the Chunk of section 3.  The geometry buffers,
bounding volume and texture handles are one handle `geometry`; the reference
count and the generation stamp are explicit. -/
structure Chunk where
  geometry : Nat
  refCount : Nat
  generation : Nat
deriving DecidableEq, Repr

/-- Modelled from the spec: the Cache Entry of section 3, a Region Key paired with
a Chunk and bookkeeping: last-access stamp, in-flight-build flag, and the
rebuild mark that `invalidate` sets. -/
structure CacheEntry where
  key : RegionKey
  chunk : Chunk
  lastAccess : Nat
  building : Bool
  rebuild : Bool
deriving DecidableEq, Repr

/-- Modelled from the spec: the Chunk Cache of section 4.1, its table of entries in
insertion order and the access clock used for recency. -/
structure ChunkCache where
  entries : List CacheEntry
  clock : Nat
deriving DecidableEq, Repr

/-- Modelled from the spec: the builder function handed to `get_or_build`; `none`
is a build failure (section 4.3: an error, never an incomplete Chunk). -/
abbrev Builder := RegionKey → Option Nat

namespace ChunkCache

/-- Modelled from the spec: the entry a Region Key maps to, if any. -/
def lookup (c : ChunkCache) (k : RegionKey) : Option CacheEntry :=
  c.entries.find? (fun e => decide (e.key = k))

/-- Apply `f` to the entries stored under key `k`. -/
def updateKey (k : RegionKey) (f : CacheEntry → CacheEntry) (es : List CacheEntry) :
    List CacheEntry :=
  es.map (fun e => if e.key = k then f e else e)

/-- Drop the entries stored under key `k`. -/
def removeKey (k : RegionKey) (es : List CacheEntry) : List CacheEntry :=
  es.filter (fun e => decide (e.key ≠ k))

/-- Modelled from the spec: `get_or_build(key, builder_fn)` of section 4.1.  Returns
the cached Chunk if present and valid (taking one more reference and stamping
the access); otherwise invokes the builder, inserts the result with one
reference and returns it.  An entry is not valid when `invalidate` marked it
and its references have dropped to zero.  On a build failure no entry is
recorded for the key and the failure is returned. -/
def getOrBuild (builder : Builder) (k : RegionKey) (c : ChunkCache) :
    Option Chunk × ChunkCache :=
  match c.lookup k with
  | some e =>
    if e.rebuild = true ∧ e.chunk.refCount = 0 then
      match builder k with
      | some g =>
        let ch : Chunk := { geometry := g, refCount := 1, generation := c.clock }
        (some ch,
          { entries := removeKey k c.entries ++
              [{ key := k, chunk := ch, lastAccess := c.clock, building := false,
                 rebuild := false }],
            clock := c.clock + 1 })
      | none => (none, { c with entries := removeKey k c.entries })
    else
      let ch : Chunk := { e.chunk with refCount := e.chunk.refCount + 1 }
      (some ch,
        { entries := updateKey k
            (fun d => { d with chunk := { d.chunk with refCount := d.chunk.refCount + 1 },
                               lastAccess := c.clock }) c.entries,
          clock := c.clock + 1 })
  | none =>
    match builder k with
    | some g =>
      let ch : Chunk := { geometry := g, refCount := 1, generation := c.clock }
      (some ch,
        { entries := c.entries ++
            [{ key := k, chunk := ch, lastAccess := c.clock, building := false,
               rebuild := false }],
          clock := c.clock + 1 })
    | none => (none, c)

/-- Modelled from the spec: `release(chunk)` of section 4.1; the chunk reference is
named by its Region Key.  Decrements the reference count; the entry stays in
the table (lazy eviction). -/
def release (k : RegionKey) (c : ChunkCache) : ChunkCache :=
  { c with
    entries := updateKey k
      (fun d => { d with chunk := { d.chunk with refCount := d.chunk.refCount - 1 } })
      c.entries }

/-- Modelled from the spec: `invalidate(key)` of section 4.1.  Never drops the
entry; marks it for rebuild on the next access once references are zero. -/
def invalidate (k : RegionKey) (c : ChunkCache) : ChunkCache :=
  { c with entries := updateKey k (fun d => { d with rebuild := true }) c.entries }

/-- Modelled from the spec: the eviction candidate of `evict_unused`, the least
recently used entry among those with zero references, the earlier inserted one
on a tie. -/
def lruUnused : List CacheEntry → Option CacheEntry
  | [] => none
  | e :: es =>
    match lruUnused es with
    | none => if e.chunk.refCount = 0 then some e else none
    | some m =>
      if e.chunk.refCount = 0 ∧ e.lastAccess ≤ m.lastAccess then some e else some m

/-- Reclaim one eviction candidate, if there is one. -/
def evictOne (c : ChunkCache) : ChunkCache :=
  match lruUnused c.entries with
  | none => c
  | some m => { c with entries := c.entries.erase m }

/-- Reclaim up to `n` eviction candidates, least recently used first. -/
def evictMany : Nat → ChunkCache → ChunkCache
  | 0, c => c
  | n + 1, c => evictMany n (evictOne c)

/-- Modelled from the spec: `evict_unused(budget)` of section 4.1.  Reclaims entries
with zero references, least recently used first, until the number of entries
is within `budget` or no zero-reference entry is left. -/
def evictUnused (budget : Nat) (c : ChunkCache) : ChunkCache :=
  evictMany (c.entries.length - budget) c

end ChunkCache

/-- One call on the Chunk Cache contract of section 4.1. -/
inductive CacheOp where
  | getOrBuild (k : RegionKey)
  | release (k : RegionKey)
  | evictUnused (budget : Nat)
  | invalidate (k : RegionKey)
deriving DecidableEq, Repr

/-- Run one cache call. -/
def CacheOp.step (builder : Builder) (op : CacheOp) (c : ChunkCache) : ChunkCache :=
  match op with
  | .getOrBuild k => (c.getOrBuild builder k).2
  | .release k => c.release k
  | .evictUnused budget => c.evictUnused budget
  | .invalidate k => c.invalidate k

/-- Run a sequence of cache calls, first to last. -/
def runOps (builder : Builder) : List CacheOp → ChunkCache → ChunkCache
  | [], c => c
  | op :: ops, c => runOps builder ops (op.step builder c)

/-- The calls `ops` leave one reference to `k` alone: with `others` references to
`k` held by the other clients at the start, no `release k` in the sequence is
issued when the other clients hold none (each `getOrBuild k` gives them one
more, each `release k` returns one). -/
def keepsReference (k : RegionKey) : Nat → List CacheOp → Bool
  | _, [] => true
  | others, .getOrBuild j :: ops =>
    keepsReference k (if j = k then others + 1 else others) ops
  | others, .release j :: ops =>
    if j = k then decide (others ≠ 0) && keepsReference k (others - 1) ops
    else keepsReference k others ops
  | others, .evictUnused _ :: ops => keepsReference k others ops
  | others, .invalidate _ :: ops => keepsReference k others ops

/-- Cache `c` holds, under key `k`, the chunk with geometry `g` and generation
`gen`, with more than `others` references. -/
def ChunkCache.Referenced (c : ChunkCache) (k : RegionKey) (g gen others : Nat) : Prop :=
  ∃ e, c.lookup k = some e ∧ e.chunk.geometry = g ∧ e.chunk.generation = gen ∧
    others + 1 ≤ e.chunk.refCount

/-! ## `Terrain::World` -/

/-- The members of `Terrain::World`, and the scene graph they point into.
`graph` is the store of `osg::Group` objects that the `ref_ptr` members refer
to; `mChunkManager` is the chunk cache the world owns. -/
structure World where
  mStorage : Option Nat
  mParent : Option NodeRef
  mTerrainRoot : Option NodeRef
  mCompositeMapCamera : Option NodeRef
  mCompositeMapRenderer : Option Nat
  mResourceSystem : Option Nat
  mTextureManager : Option Nat
  mChunkManager : ChunkCache
  graph : List (NodeRef × Group)
deriving DecidableEq, Repr

namespace World

/-- The group a reference points to, if it is in the scene graph. -/
def group (w : World) (r : Option NodeRef) : Option Group :=
  match r with
  | none => none
  | some n => (w.graph.find? (fun g => decide (g.1 = n))).map (fun g => g.2)

/-- The child list of the group a reference points to. -/
def childrenOf (w : World) (r : Option NodeRef) : List NodeRef :=
  match w.group r with
  | none => []
  | some g => g.children

/-- Source: `virtual void loadCell(int x, int y) {}`. -/
def loadCell (_x _y : Int) (w : World) : World := w

/-- Source: `virtual void unloadCell(int x, int y) {}`. -/
def unloadCell (_x _y : Int) (w : World) : World := w

/-- Source: `virtual void enable(bool enabled) {}`. -/
def enable (_enabled : Bool) (w : World) : World := w

/-- Source: `virtual View* createView() { return NULL; }`. -/
def createView (w : World) : Option ViewRef × World := (none, w)

/-- Source: `virtual void removeView(View* view) {}`. -/
def removeView (_view : Option ViewRef) (w : World) : World := w

/-- Source: `virtual void preload(View* view, const osg::Vec3f& eyePoint) {}`. -/
def preload (_view : Option ViewRef) (_eyePoint : Vec3f) (w : World) : World := w

/-- Source: `Storage* getStorage() { return mStorage; }`. -/
def getStorage (w : World) : Option Nat := w.mStorage

/-- The Region Key of the cell `(x, y)` at level of detail `lod`. -/
def cellKey (lod : Nat) (x y : Int) : RegionKey := { x := x, y := y, lod := lod }

/-- Modelled from the spec: the body of `World::cacheCell`, which `world.hpp` only
declares.  "Load a terrain cell and store it in cache for later use": the
cell is requested from the chunk cache with `get_or_build`, and the returned
reference is the one the caller is told to keep.  The level of detail cells
are cached at and the builder are parameters. -/
def cacheCell (builder : Builder) (lod : Nat) (x y : Int) (w : World) :
    Option Chunk × World :=
  ((w.mChunkManager.getOrBuild builder (cellKey lod x y)).1,
   { w with mChunkManager := (w.mChunkManager.getOrBuild builder (cellKey lod x y)).2 })

end World

end Terrain

/-! ## `MWRender::CellRender` (game/mwrender/cell.cpp) -/

namespace MWRender

/-- The type `Ogre::Vector3`. -/
structure Vector3 where
  x : Float32
  y : Float32
  z : Float32
deriving DecidableEq, Repr

/-- The rotation axes `Vector3::UNIT_X`, `UNIT_Y`, `UNIT_Z`. -/
inductive Axis where
  | unitX
  | unitY
  | unitZ
deriving DecidableEq, Repr

/-- An `Ogre::Quaternion` value, kept as the expression that builds it: the
identity, `Quaternion(Radian(angle), axis)`, or a product `a * b`. -/
inductive Quaternion where
  | identity
  | angleAxis (angle : Float32) (axis : Axis)
  | mul (a b : Quaternion)
deriving DecidableEq, Repr

/-- Unary minus on a `float`: the sign bit of the pattern is flipped. -/
def negFloat (f : Float32) : Float32 := Nat.xor f 2147483648

/-- The pattern of `0.0f`. -/
def zeroFloat : Float32 := 0

/-- The pattern of `1.0f`. -/
def oneFloat : Float32 := 1065353216

/-- An `Ogre::Vector3` read in exact arithmetic over a commutative ring `R`. -/
structure ExactVector3 (R : Type) where
  x : R
  y : R
  z : R
deriving DecidableEq, Repr

/-- An `Ogre::Quaternion` read in exact arithmetic over a commutative ring `R`:
the components `w`, `x`, `y`, `z`. -/
structure ExactQuaternion (R : Type) where
  w : R
  x : R
  y : R
  z : R
deriving DecidableEq, Repr

/-- The unit vectors `Vector3::UNIT_X`, `UNIT_Y`, `UNIT_Z`. -/
def Axis.toVector {R : Type} [CommRing R] : Axis → ExactVector3 R
  | .unitX => ⟨1, 0, 0⟩
  | .unitY => ⟨0, 1, 0⟩
  | .unitZ => ⟨0, 0, 1⟩

/-- Ogre `Vector3::crossProduct`. -/
def ExactVector3.crossProduct {R : Type} [CommRing R] (a b : ExactVector3 R) :
    ExactVector3 R :=
  ⟨a.y * b.z - a.z * b.y, a.z * b.x - a.x * b.z, a.x * b.y - a.y * b.x⟩

namespace ExactQuaternion

variable {R : Type} [CommRing R]

/-- Ogre `Quaternion::FromAngleAxis`, given the cosine `c` and the sine `s` of
half the angle: `w = c` and `(x, y, z) = s * axis`. -/
def fromAngleAxis (c s : R) (axis : ExactVector3 R) : ExactQuaternion R :=
  ⟨c, s * axis.x, s * axis.y, s * axis.z⟩

/-- Ogre `Quaternion::operator*(const Quaternion&)`. -/
def mul (p q : ExactQuaternion R) : ExactQuaternion R :=
  ⟨p.w * q.w - p.x * q.x - p.y * q.y - p.z * q.z,
   p.w * q.x + p.x * q.w + p.y * q.z - p.z * q.y,
   p.w * q.y + p.y * q.w + p.z * q.x - p.x * q.z,
   p.w * q.z + p.z * q.w + p.x * q.y - p.y * q.x⟩

/-- Ogre `Quaternion::Norm`: the sum of the squared components. -/
def norm (q : ExactQuaternion R) : R := q.w * q.w + q.x * q.x + q.y * q.y + q.z * q.z

/-- Ogre `Quaternion::operator*(const Vector3&)`, the rotation of `v` by `q`:
with `uv = qvec × v` and `uuv = qvec × uv`, the result is
`v + (2 w) uv + 2 uuv`. -/
def rotate (q : ExactQuaternion R) (v : ExactVector3 R) : ExactVector3 R :=
  let qvec : ExactVector3 R := ⟨q.x, q.y, q.z⟩
  let uv := qvec.crossProduct v
  let uuv := qvec.crossProduct uv
  ⟨v.x + 2 * q.w * uv.x + 2 * uuv.x,
   v.y + 2 * q.w * uv.y + 2 * uuv.y,
   v.z + 2 * q.w * uv.z + 2 * uuv.z⟩

/-- The vector part of `q * (0, v) * conj q`, written with the quaternion
product. -/
def conjugation (q : ExactQuaternion R) (v : ExactVector3 R) : ExactVector3 R :=
  ⟨(mul (mul q ⟨0, v.x, v.y, v.z⟩) ⟨q.w, -q.x, -q.y, -q.z⟩).x,
   (mul (mul q ⟨0, v.x, v.y, v.z⟩) ⟨q.w, -q.x, -q.y, -q.z⟩).y,
   (mul (mul q ⟨0, v.x, v.y, v.z⟩) ⟨q.w, -q.x, -q.y, -q.z⟩).z⟩

end ExactQuaternion

/-- The exact-arithmetic value of a quaternion expression.  `cosHalf a` and
`sinHalf a` stand for the cosine and the sine of half the angle whose `float`
pattern is `a`, as `Quaternion(Radian(a), axis)` computes them. -/
def Quaternion.toExact {R : Type} [CommRing R] (cosHalf sinHalf : Float32 → R) :
    Quaternion → ExactQuaternion R
  | .identity => ⟨1, 0, 0, 0⟩
  | .angleAxis a axis => ExactQuaternion.fromAngleAxis (cosHalf a) (sinHalf a) axis.toVector
  | .mul p q => ExactQuaternion.mul (p.toExact cosHalf sinHalf) (q.toExact cosHalf sinHalf)

/-- An `Ogre::Entity` attached to a scene node: its mesh and visibility flag. -/
structure Entity where
  mesh : String
  visible : Bool
deriving DecidableEq, Repr

/-- An `Ogre::SceneNode` with its attached objects and child nodes.  `id` is the
node's identity (what a `SceneNode*` points to). -/
inductive SceneNode where
  | mk (id : Nat) (position : Vector3) (scale : Vector3) (orientation : Quaternion)
      (objects : List Entity) (children : List SceneNode)

/-- A `SceneNode*`; `none` is `NULL`. -/
abbrev NodePtr := Option Nat

namespace SceneNode

/-- The identity of a node. -/
def id : SceneNode → Nat
  | .mk i _ _ _ _ _ => i

/-- The entities attached directly to a node. -/
def objects : SceneNode → List Entity
  | .mk _ _ _ _ objs _ => objs

/-- The direct children of a node. -/
def children : SceneNode → List SceneNode
  | .mk _ _ _ _ _ ch => ch

/-- The orientation of a node. -/
def orientation : SceneNode → Quaternion
  | .mk _ _ _ o _ _ => o

/-- The identities of the direct children of a node. -/
def childIds (n : SceneNode) : List Nat := n.children.map id

mutual
/-- Ogre `SceneNode::setVisible(v)` at a node: every attached object gets the
flag and, cascading, every child node is treated the same way. -/
def setVisibleAll (v : Bool) : SceneNode → SceneNode
  | .mk i p s o objs ch =>
    .mk i p s o (objs.map (fun e => { e with visible := v })) (setVisibleAllList v ch)
/-- The cascade of `setVisibleAll` over a child list. -/
def setVisibleAllList (v : Bool) : List SceneNode → List SceneNode
  | [] => []
  | n :: ns => setVisibleAll v n :: setVisibleAllList v ns
end

mutual
/-- Apply `f` to the node with identity `target` (outermost occurrence). -/
def modify (target : Nat) (f : SceneNode → SceneNode) : SceneNode → SceneNode
  | .mk i p s o objs ch =>
    if i = target then f (.mk i p s o objs ch)
    else .mk i p s o objs (modifyList target f ch)
/-- The traversal of `modify` over a child list. -/
def modifyList (target : Nat) (f : SceneNode → SceneNode) : List SceneNode → List SceneNode
  | [] => []
  | n :: ns => modify target f n :: modifyList target f ns
end

mutual
/-- The node with identity `target`, searched in pre-order. -/
def find? (target : Nat) : SceneNode → Option SceneNode
  | .mk i p s o objs ch =>
    if i = target then some (.mk i p s o objs ch) else findList? target ch
/-- The search of `find?` over a child list. -/
def findList? (target : Nat) : List SceneNode → Option SceneNode
  | [] => none
  | n :: ns =>
    match find? target n with
    | some r => some r
    | none => findList? target ns
end

mutual
/-- Remove the nodes with identity `target` (with their subtrees) from below a node. -/
def remove (target : Nat) : SceneNode → SceneNode
  | .mk i p s o objs ch => .mk i p s o objs (removeList target ch)
/-- The traversal of `remove` over a child list. -/
def removeList (target : Nat) : List SceneNode → List SceneNode
  | [] => []
  | n :: ns =>
    if n.id = target then removeList target ns
    else remove target n :: removeList target ns
end

mutual
/-- The identities of all nodes of a subtree, in pre-order. -/
def ids : SceneNode → List Nat
  | .mk i _ _ _ _ ch => i :: idsList ch
/-- The identities of all nodes of a forest. -/
def idsList : List SceneNode → List Nat
  | [] => []
  | n :: ns => ids n ++ idsList ns
end

mutual
/-- The meshes of all entities attached in a subtree, in pre-order. -/
def meshes : SceneNode → List String
  | .mk _ _ _ _ objs ch => objs.map (fun e => e.mesh) ++ meshesList ch
/-- The meshes of all entities attached in a forest. -/
def meshesList : List SceneNode → List String
  | [] => []
  | n :: ns => meshes n ++ meshesList ns
end

mutual
/-- Every entity attached in the subtree is flagged visible. -/
def allVisible : SceneNode → Bool
  | .mk _ _ _ _ objs ch => objs.all (fun e => e.visible) && allVisibleList ch
/-- Every entity attached in the forest is flagged visible. -/
def allVisibleList : List SceneNode → Bool
  | [] => true
  | n :: ns => allVisible n && allVisibleList ns
end

end SceneNode

/-- The render scene (`MWScene` with its Ogre scene manager): the node tree
under the root scene node, the counter for fresh node identities, and the
meshes `NIFLoader::load` has been called on. -/
structure Scene where
  root : SceneNode
  nextId : Nat
  loaded : List String

namespace Scene

/-- Source: `scene.getRoot()`, a pointer to the root scene node. -/
def getRoot (sc : Scene) : Nat := sc.root.id

/-- Ogre `parent->createChildSceneNode()`: a fresh node at the origin, with unit
scale and identity orientation, appended to the children of `parent`. -/
def createChildSceneNode (parent : Nat) (sc : Scene) : Nat × Scene :=
  (sc.nextId,
   { sc with
     root := sc.root.modify parent (fun n =>
       .mk n.id
         (match n with | .mk _ p _ _ _ _ => p)
         (match n with | .mk _ _ s _ _ _ => s)
         n.orientation n.objects
         (n.children ++
           [.mk sc.nextId ⟨zeroFloat, zeroFloat, zeroFloat⟩ ⟨oneFloat, oneFloat, oneFloat⟩
              .identity [] []]))
     nextId := sc.nextId + 1 })

/-- Ogre `node->setPosition(x, y, z)`. -/
def setPosition (node : Nat) (v : Vector3) (sc : Scene) : Scene :=
  { sc with root := sc.root.modify node (fun n =>
      match n with | .mk i _ s o objs ch => .mk i v s o objs ch) }

/-- Ogre `node->setScale(x, y, z)`. -/
def setScale (node : Nat) (v : Vector3) (sc : Scene) : Scene :=
  { sc with root := sc.root.modify node (fun n =>
      match n with | .mk i p _ o objs ch => .mk i p v o objs ch) }

/-- Ogre `node->setOrientation(q)`. -/
def setOrientation (node : Nat) (q : Quaternion) (sc : Scene) : Scene :=
  { sc with root := sc.root.modify node (fun n =>
      match n with | .mk i p s _ objs ch => .mk i p s q objs ch) }

/-- Source: `NIFLoader::load(mesh)`; the mesh resource is recorded as loaded. -/
def nifLoad (mesh : String) (sc : Scene) : Scene :=
  { sc with loaded := sc.loaded ++ [mesh] }

/-- Ogre `createEntity(mesh)`: a new, visible entity of the mesh. -/
def createEntity (mesh : String) : Entity := { mesh := mesh, visible := true }

/-- Ogre `node->attachObject(ent)`. -/
def attachObject (node : Nat) (ent : Entity) (sc : Scene) : Scene :=
  { sc with root := sc.root.modify node (fun n =>
      match n with | .mk i p s o objs ch => .mk i p s o (objs ++ [ent]) ch) }

/-- Ogre `node->setVisible(v)`, cascading to the subtree. -/
def setVisible (node : Nat) (v : Bool) (sc : Scene) : Scene :=
  { sc with root := sc.root.modify node (SceneNode.setVisibleAll v) }

/-- Ogre `node->removeAndDestroyAllChildren()`. -/
def removeAndDestroyAllChildren (node : Nat) (sc : Scene) : Scene :=
  { sc with root := sc.root.modify node (fun n =>
      match n with | .mk i p s o objs _ => .mk i p s o objs []) }

/-- Ogre `destroySceneNode(node)`. -/
def destroySceneNode (node : Nat) (sc : Scene) : Scene :=
  { sc with root := sc.root.remove node }

end Scene

/-- The type `ESM::Position`: `pos[3]` and `rot[3]`. -/
structure Position where
  pos : Float32 × Float32 × Float32
  rot : Float32 × Float32 × Float32
deriving DecidableEq, Repr

/-- The fields of `ESM::CellRef` that `insertMesh` reads. -/
structure CellRef where
  pos : Position
  scale : Float32
deriving DecidableEq, Repr

/-- The reference lists of an `ESMS::CellStore`, in the order `show` visits
them; `L` is the type of one list (`CellRefList<T>`). -/
structure CellStore (L : Type) where
  activators : L
  potions : L
  appas : L
  armors : L
  books : L
  clothes : L
  containers : L
  creatures : L
  creatureLists : L
  doors : L
  ingreds : L
  itemLists : L
  lights : L
  lockpicks : L
  miscItems : L
  npcs : L
  probes : L
  repairs : L
  statics : L
  weapons : L

/-- The members of `CellRender`: the cell data, the scene, and `base`, the
scene node of the cell (`NULL` until the cell is first shown). -/
structure CellRender (L : Type) where
  cell : CellStore L
  scene : Scene
  base : NodePtr

namespace CellRender

variable {L : Type}

/-- Source: `CellRender::insertMesh`.  Creates a child node of `base`, places,
scales and orients it, loads the NIF mesh and attaches an entity of it.
`none` is the dereference of a null `base`. -/
def insertMesh (mesh : String) (ref : CellRef) (cr : CellRender L) : Option (CellRender L) :=
  match cr.base with
  | none => none
  | some b =>
    let created := cr.scene.createChildSceneNode b
    let node := created.1
    let sc := created.2
    let sc := sc.setPosition node ⟨ref.pos.pos.1, ref.pos.pos.2.1, ref.pos.pos.2.2⟩
    let sc := sc.setScale node ⟨ref.scale, ref.scale, ref.scale⟩
    let xr := Quaternion.angleAxis (negFloat ref.pos.rot.1) Axis.unitX
    let yr := Quaternion.angleAxis (negFloat ref.pos.rot.2.1) Axis.unitY
    let zr := Quaternion.angleAxis (negFloat ref.pos.rot.2.2) Axis.unitZ
    let sc := sc.setOrientation node (Quaternion.mul (Quaternion.mul xr yr) zr)
    let sc := sc.nifLoad mesh
    let ent := Scene.createEntity mesh
    let sc := sc.attachObject node ent
    some { cr with scene := sc }

/-- Source: `CellRender::show`.  The member template `insertCellRefList` is
declared in `cell.hpp`, which is not among the sources; it is the parameter
`insertCellRefList`.  The reference lists are those of the cell store the
renderer was constructed on, which the renderer only reads. -/
def «show» (insertCellRefList : L → CellRender L → CellRender L) (cr : CellRender L) :
    CellRender L :=
  match cr.base with
  | some b => { cr with scene := cr.scene.setVisible b true }
  | none =>
    let cell := cr.cell
    let created := cr.scene.createChildSceneNode cr.scene.getRoot
    let cr := { cr with base := some created.1, scene := created.2 }
    let cr := insertCellRefList cell.activators cr
    let cr := insertCellRefList cell.potions cr
    let cr := insertCellRefList cell.appas cr
    let cr := insertCellRefList cell.armors cr
    let cr := insertCellRefList cell.books cr
    let cr := insertCellRefList cell.clothes cr
    let cr := insertCellRefList cell.containers cr
    let cr := insertCellRefList cell.creatures cr
    let cr := insertCellRefList cell.doors cr
    let cr := insertCellRefList cell.ingreds cr
    let cr := insertCellRefList cell.lights cr
    let cr := insertCellRefList cell.lockpicks cr
    let cr := insertCellRefList cell.miscItems cr
    let cr := insertCellRefList cell.npcs cr
    let cr := insertCellRefList cell.probes cr
    let cr := insertCellRefList cell.repairs cr
    let cr := insertCellRefList cell.statics cr
    let cr := insertCellRefList cell.weapons cr
    cr

/-- Source: `CellRender::hide`. -/
def hide (cr : CellRender L) : CellRender L :=
  match cr.base with
  | some b => { cr with scene := cr.scene.setVisible b false }
  | none => cr

/-- Source: `CellRender::destroy`. -/
def destroy (cr : CellRender L) : CellRender L :=
  match cr.base with
  | some b =>
    { cr with
      scene := (cr.scene.removeAndDestroyAllChildren b).destroySceneNode b
      base := none }
  | none => { cr with base := none }

/-- A reference list as `(mesh, reference)` pairs, inserted one by one with
`insertMesh`; a sample instance for the `insertCellRefList` parameter. -/
def insertMeshes (refs : List (String × CellRef)) (cr : CellRender (List (String × CellRef))) :
    CellRender (List (String × CellRef)) :=
  refs.foldl (fun c r => (insertMesh r.1 r.2 c).getD c) cr

end CellRender

end MWRender

/-! ## `MainDialog::changePage` (apps/launcher/maindialog.cpp) -/

namespace Launcher

/-- A `QListWidgetItem`: its identity and its `Qt::DisplayRole` text. -/
structure QListWidgetItem where
  id : Nat
  text : String
deriving DecidableEq, Repr

/-- The two `QStringListModel` objects the dialog reaches: the one behind
`mPlayPage->mProfilesModel` and the one behind `mDataFilesPage->mProfilesModel`. -/
inductive ModelRef where
  | playProfiles
  | dataFilesProfiles
deriving DecidableEq, Repr

/-- A `QComboBox`: the model it displays and its current index (`-1`: none). -/
structure QComboBox where
  model : ModelRef
  currentIndex : Int
deriving DecidableEq, Repr

/-- The members of `PlayPage` and of `DataFilesPage` that `changePage` uses:
the string list held by `mProfilesModel`, and `mProfilesComboBox`. -/
structure ProfilesPage where
  mProfilesModel : List String
  mProfilesComboBox : QComboBox
deriving DecidableEq, Repr

/-- A `QStackedWidget`: the number of pages and the index of the current one. -/
structure QStackedWidget where
  count : Nat
  currentIndex : Int
deriving DecidableEq, Repr

/-- The members of `MainDialog`. -/
structure MainDialog where
  mIconWidget : List QListWidgetItem
  mPagesWidget : QStackedWidget
  mPlayPage : ProfilesPage
  mDataFilesPage : ProfilesPage
deriving DecidableEq, Repr

namespace MainDialog

/-- Qt `QListWidget::row(item)`: the position of the item in the widget, `-1`
when it is not there (or null). -/
def row (items : List QListWidgetItem) (item : Option QListWidgetItem) : Int :=
  match item with
  | none => -1
  | some it =>
    if items.findIdx (fun j => decide (j.id = it.id)) < items.length then
      (items.findIdx (fun j => decide (j.id = it.id)) : Int)
    else -1

/-- Qt `QStackedWidget::setCurrentIndex(i)`: ignored when there is no page `i`. -/
def setPage (i : Int) (s : QStackedWidget) : QStackedWidget :=
  if 0 ≤ i ∧ i < (s.count : Int) then { s with currentIndex := i } else s

/-- Qt `QStringListModel::stringList()`. -/
def stringList (d : MainDialog) (m : ModelRef) : List String :=
  match m with
  | .playProfiles => d.mPlayPage.mProfilesModel
  | .dataFilesProfiles => d.mDataFilesPage.mProfilesModel

/-- The effect of a model reset on a combo box: a box displaying `m` loses its
current index. -/
def resetCombo (m : ModelRef) (cb : QComboBox) : QComboBox :=
  if cb.model = m then { cb with currentIndex := -1 } else cb

/-- Qt `QStringListModel::setStringList(l)` on the model `m`: the list is
replaced and the model is reset. -/
def setStringList (m : ModelRef) (l : List String) (d : MainDialog) : MainDialog :=
  match m with
  | .playProfiles =>
    { d with
      mPlayPage :=
        { mProfilesModel := l
          mProfilesComboBox := resetCombo m d.mPlayPage.mProfilesComboBox }
      mDataFilesPage :=
        { d.mDataFilesPage with
          mProfilesComboBox := resetCombo m d.mDataFilesPage.mProfilesComboBox } }
  | .dataFilesProfiles =>
    { d with
      mPlayPage :=
        { d.mPlayPage with
          mProfilesComboBox := resetCombo m d.mPlayPage.mProfilesComboBox }
      mDataFilesPage :=
        { mProfilesModel := l
          mProfilesComboBox := resetCombo m d.mDataFilesPage.mProfilesComboBox } }

/-- Qt `QComboBox::setCurrentIndex(i)`: an index outside the displayed model
clears the selection. -/
def setCurrentIndex (d : MainDialog) (i : Int) (cb : QComboBox) : QComboBox :=
  if 0 ≤ i ∧ i < ((d.stringList cb.model).length : Int) then { cb with currentIndex := i }
  else { cb with currentIndex := -1 }

/-- Source: `MainDialog::changePage`. -/
def changePage (current previous : Option QListWidgetItem) (d : MainDialog) : MainDialog :=
  let current := match current with
    | none => previous
    | some c => some c
  let d := { d with mPagesWidget := setPage (row d.mIconWidget current) d.mPagesWidget }
  match previous, current with
  | some prev, some cur =>
    let previousPage := prev.text
    let currentPage := cur.text
    let d :=
      if previousPage = "Data Files" ∧ currentPage = "Play" then
        let d := setStringList .playProfiles (d.stringList .dataFilesProfiles) d
        { d with
          mPlayPage := { d.mPlayPage with
            mProfilesComboBox :=
              setCurrentIndex d d.mDataFilesPage.mProfilesComboBox.currentIndex
                d.mPlayPage.mProfilesComboBox } }
      else d
    let d :=
      if previousPage = "Play" ∧ currentPage = "Data Files" then
        { d with
          mDataFilesPage := { d.mDataFilesPage with
            mProfilesComboBox :=
              setCurrentIndex d d.mPlayPage.mProfilesComboBox.currentIndex
                d.mDataFilesPage.mProfilesComboBox } }
      else d
    d
  | _, _ => d

/-- The state the page constructors and Qt maintain: each page's combo box
displays that page's own profiles model, and the Data Files combo box reports
an index Qt can report (`-1` or a row of its model). -/
def Wired (d : MainDialog) : Prop :=
  d.mPlayPage.mProfilesComboBox.model = .playProfiles ∧
  d.mDataFilesPage.mProfilesComboBox.model = .dataFilesProfiles ∧
  -1 ≤ d.mDataFilesPage.mProfilesComboBox.currentIndex ∧
  d.mDataFilesPage.mProfilesComboBox.currentIndex <
    (d.mDataFilesPage.mProfilesModel.length : Int)

end MainDialog

end Launcher

/-! ## Sample states -/

namespace Terrain

/-- A world with a parent group `0` holding the terrain root `1`, which holds
two chunk nodes, and an empty chunk cache. -/
def sampleWorld : World :=
  { mStorage := some 7
    mParent := some 0
    mTerrainRoot := some 1
    mCompositeMapCamera := some 2
    mCompositeMapRenderer := some 3
    mResourceSystem := some 4
    mTextureManager := some 5
    mChunkManager := { entries := [], clock := 0 }
    graph := [(0, { nodeMask := 1, children := [1, 2] }),
              (1, { nodeMask := 1, children := [10, 11] }),
              (2, { nodeMask := 0, children := [] })] }

/-- A builder that succeeds on every key. -/
def sampleBuilder : Builder := fun k => some (k.x.natAbs + k.y.natAbs + k.lod)

/-- A run of cache calls around a cached cell `(2, 3)`: another cell is built,
eviction runs with budget zero, the other cell is released, the cell `(2, 3)` is
invalidated, requested again and released once, and eviction runs again. -/
def sampleOps : List CacheOp :=
  [.getOrBuild ⟨7, 7, 0⟩, .evictUnused 0, .release ⟨7, 7, 0⟩, .invalidate ⟨2, 3, 0⟩,
   .getOrBuild ⟨2, 3, 0⟩, .release ⟨2, 3, 0⟩, .evictUnused 0]

end Terrain

namespace MWRender

/-- A scene whose root `0` holds the cell node `1`, hidden, with one mesh node. -/
def sampleScene : Scene :=
  { root := .mk 0 ⟨0, 0, 0⟩ ⟨oneFloat, oneFloat, oneFloat⟩ .identity []
      [.mk 1 ⟨0, 0, 0⟩ ⟨oneFloat, oneFloat, oneFloat⟩ .identity []
        [.mk 2 ⟨0, 0, 0⟩ ⟨oneFloat, oneFloat, oneFloat⟩ .identity
          [{ mesh := "meshes\\door.nif", visible := false }] []]]
    nextId := 3
    loaded := ["meshes\\door.nif"] }

/-- A cell with one static and one door reference, every other list empty. -/
def sampleCell : CellStore (List (String × CellRef)) :=
  { activators := [], potions := [], appas := [], armors := [], books := [],
    clothes := [], containers := [], creatures := [], creatureLists := [],
    doors := [("meshes\\door.nif", { pos := { pos := (0, 0, 0), rot := (0, 0, 0) },
                                      scale := oneFloat })],
    ingreds := [], itemLists := [], lights := [], lockpicks := [], miscItems := [],
    npcs := [], probes := [], repairs := [],
    statics := [("meshes\\wall.nif", { pos := { pos := (0, 0, 0), rot := (0, 0, 0) },
                                        scale := oneFloat })],
    weapons := [] }

/-- A renderer whose cell is already loaded under node `1` and hidden. -/
def sampleLoaded : CellRender (List (String × CellRef)) :=
  { cell := sampleCell, scene := sampleScene, base := some 1 }

/-- A reference rotated by the angles `1.0f`, `2.0f` and `3.0f`. -/
def sampleRef : CellRef :=
  { pos := { pos := (0, 0, 0), rot := (1065353216, 1073741824, 1077936128) },
    scale := oneFloat }

/-- A rational stand-in for the cosine of half an angle: `3/5` for every angle. -/
def sampleCosHalf : Float32 → ℚ := fun _ => 3 / 5

/-- A rational stand-in for the sine of half an angle: `4/5` for every angle. -/
def sampleSinHalf : Float32 → ℚ := fun _ => 4 / 5

/-- A renderer whose cell has not been shown yet, in a scene with only a root. -/
def sampleUnloaded : CellRender (List (String × CellRef)) :=
  { cell := sampleCell
    scene := { root := .mk 0 ⟨0, 0, 0⟩ ⟨oneFloat, oneFloat, oneFloat⟩ .identity [] []
               nextId := 1
               loaded := [] }
    base := none }

end MWRender

namespace Launcher

/-- The dialog after construction, with three profiles on the Data Files page,
the second one selected, and a stale Play page. -/
def sampleDialog : MainDialog :=
  { mIconWidget := [{ id := 0, text := "Play" }, { id := 1, text := "Graphics" },
                    { id := 2, text := "Data Files" }]
    mPagesWidget := { count := 3, currentIndex := 2 }
    mPlayPage := { mProfilesModel := ["Default"],
                   mProfilesComboBox := { model := .playProfiles, currentIndex := 0 } }
    mDataFilesPage := { mProfilesModel := ["Default", "Warrior", "Redemption"],
                        mProfilesComboBox := { model := .dataFilesProfiles,
                                               currentIndex := 1 } } }

end Launcher

/-! ## Properties of `Terrain::World` -/

namespace Terrain

/-- C1: `World::loadCell` is idempotent.  For every cell coordinate and every world
state, calling `loadCell(x, y)` twice in a row leaves the world, its parent, its
terrain root and their child lists as one call does. -/
theorem loadCell_idempotent (x y : Int) (w : World) :
    World.loadCell x y (World.loadCell x y w) = World.loadCell x y w ∧
    (World.loadCell x y (World.loadCell x y w)).mParent = (World.loadCell x y w).mParent ∧
    (World.loadCell x y (World.loadCell x y w)).mTerrainRoot =
      (World.loadCell x y w).mTerrainRoot ∧
    (World.loadCell x y (World.loadCell x y w)).childrenOf
        (World.loadCell x y (World.loadCell x y w)).mTerrainRoot =
      (World.loadCell x y w).childrenOf (World.loadCell x y w).mTerrainRoot :=
  ⟨rfl, rfl, rfl, rfl⟩

/-- C2, as stated, fails: on the sample world `createView()` returns `NULL`, and a
second call returns the same null pointer again, so it is not true that every
world state yields a non-null, fresh View. -/
theorem createView_sample_is_null :
    (World.createView sampleWorld).1 = none ∧
    (World.createView (World.createView sampleWorld).2).1 = (World.createView sampleWorld).1 ∧
    ¬ (∀ w : World, ∃ v : ViewRef, (World.createView w).1 = some v) := by
  refine ⟨rfl, rfl, ?_⟩
  intro h
  obtain ⟨v, hv⟩ := h sampleWorld
  simp [World.createView] at hv

/-- C2, amended: the base `World::createView` allocates nothing.  For every world
state it returns `NULL` and leaves the world unchanged. -/
theorem createView_returns_null (w : World) :
    (World.createView w).1 = none ∧ (World.createView w).2 = w :=
  ⟨rfl, rfl⟩

/-- C3: `World::preload` does not touch the live scene graph.  For every view and
eye point, the world's parent and terrain root and their child lists (indeed the
whole scene graph store) are the same after the call as before. -/
theorem preload_leaves_scene_graph (view : Option ViewRef) (eyePoint : Vec3f) (w : World) :
    (World.preload view eyePoint w).mParent = w.mParent ∧
    (World.preload view eyePoint w).mTerrainRoot = w.mTerrainRoot ∧
    (World.preload view eyePoint w).childrenOf (World.preload view eyePoint w).mParent =
      w.childrenOf w.mParent ∧
    (World.preload view eyePoint w).childrenOf (World.preload view eyePoint w).mTerrainRoot =
      w.childrenOf w.mTerrainRoot ∧
    (World.preload view eyePoint w).graph = w.graph :=
  ⟨rfl, rfl, rfl, rfl, rfl⟩

end Terrain

/-! ## Properties of the chunk cache behind `World::cacheCell` -/

namespace Terrain

namespace ChunkCache

theorem find?_key_map (j : RegionKey) (g : CacheEntry → CacheEntry)
    (hg : ∀ e, (g e).key = e.key) (es : List CacheEntry) :
    (es.map g).find? (fun e => decide (e.key = j)) =
      (es.find? (fun e => decide (e.key = j))).map g := by
  induction es with
  | nil => rfl
  | cons a as ih =>
    by_cases h : a.key = j
    · simp [List.find?_cons, h, hg]
    · simp [List.find?_cons, h, hg, ih]

theorem find?_updateKey (k j : RegionKey) (f : CacheEntry → CacheEntry)
    (hf : ∀ e, (f e).key = e.key) (es : List CacheEntry) :
    (updateKey k f es).find? (fun e => decide (e.key = j)) =
      (es.find? (fun e => decide (e.key = j))).map (fun e => if e.key = k then f e else e) := by
  unfold updateKey
  apply find?_key_map
  intro e
  by_cases h : e.key = k
  · simp [h, hf]
  · simp [h]

theorem removeKey_cons_of_eq (k : RegionKey) (a : CacheEntry) (es : List CacheEntry)
    (h : a.key = k) : removeKey k (a :: es) = removeKey k es := by
  unfold removeKey
  exact List.filter_cons_of_neg (by simp [h])

theorem removeKey_cons_of_ne (k : RegionKey) (a : CacheEntry) (es : List CacheEntry)
    (h : ¬ a.key = k) : removeKey k (a :: es) = a :: removeKey k es := by
  unfold removeKey
  exact List.filter_cons_of_pos (by simp [h])

theorem find?_removeKey_of_ne (k j : RegionKey) (hjk : j ≠ k) (es : List CacheEntry) :
    (removeKey k es).find? (fun e => decide (e.key = j)) =
      es.find? (fun e => decide (e.key = j)) := by
  induction es with
  | nil => rfl
  | cons a as ih =>
    by_cases h : a.key = k
    · have hj : ¬ a.key = j := fun h2 => hjk (h2.symm.trans h)
      rw [removeKey_cons_of_eq k a as h, ih, List.find?_cons_of_neg _ (by simpa using hj)]
    · rw [removeKey_cons_of_ne k a as h]
      by_cases hj : a.key = j
      · rw [List.find?_cons_of_pos _ (by simpa using hj),
          List.find?_cons_of_pos _ (by simpa using hj)]
      · rw [List.find?_cons_of_neg _ (by simpa using hj),
          List.find?_cons_of_neg _ (by simpa using hj), ih]

theorem find?_removeKey_self (k : RegionKey) (es : List CacheEntry) :
    (removeKey k es).find? (fun e => decide (e.key = k)) = none := by
  induction es with
  | nil => rfl
  | cons a as ih =>
    by_cases h : a.key = k
    · rw [removeKey_cons_of_eq k a as h, ih]
    · rw [removeKey_cons_of_ne k a as h, List.find?_cons_of_neg _ (by simpa using h), ih]

theorem find?_erase_of_ne (p : CacheEntry → Bool) (m a : CacheEntry) (hne : a ≠ m) :
    ∀ es : List CacheEntry, es.find? p = some a → (es.erase m).find? p = some a := by
  intro es
  induction es with
  | nil => intro h; simp at h
  | cons b bs ih =>
    intro h
    by_cases hb : b = m
    · subst hb
      rw [List.erase_cons_head]
      by_cases hp : p b = true
      · rw [List.find?_cons_of_pos _ hp] at h
        exact absurd (Option.some.inj h).symm hne
      · rw [List.find?_cons_of_neg _ hp] at h
        exact h
    · rw [List.erase_cons_tail (by simpa using hb)]
      by_cases hp : p b = true
      · rw [List.find?_cons_of_pos _ hp] at h
        rw [List.find?_cons_of_pos _ hp]
        exact h
      · rw [List.find?_cons_of_neg _ hp] at h
        rw [List.find?_cons_of_neg _ hp]
        exact ih h

theorem lruUnused_refCount :
    ∀ (es : List CacheEntry) (m : CacheEntry), lruUnused es = some m → m.chunk.refCount = 0 := by
  intro es
  induction es with
  | nil => intro m h; simp [lruUnused] at h
  | cons a as ih =>
    intro m h
    simp only [lruUnused] at h
    cases hr : lruUnused as with
    | none =>
      rw [hr] at h
      by_cases h0 : a.chunk.refCount = 0
      · simp [h0] at h
        subst h
        exact h0
      · simp [h0] at h
    | some m2 =>
      rw [hr] at h
      by_cases hc : a.chunk.refCount = 0 ∧ a.lastAccess ≤ m2.lastAccess
      · simp only [hc, and_self, if_true] at h
        have := Option.some.inj h
        subst this
        exact hc.1
      · simp only [hc, if_false] at h
        have := Option.some.inj h
        subst this
        exact ih _ hr

theorem lookup_evictOne (c : ChunkCache) (k : RegionKey) (e : CacheEntry)
    (h : c.lookup k = some e) (hr : 1 ≤ e.chunk.refCount) : (evictOne c).lookup k = some e := by
  unfold evictOne
  cases hm : lruUnused c.entries with
  | none => simpa using h
  | some m =>
    have h0 := lruUnused_refCount _ _ hm
    have hne : e ≠ m := by
      intro heq
      subst heq
      omega
    exact find?_erase_of_ne _ m e hne c.entries h

theorem lookup_evictMany (k : RegionKey) (e : CacheEntry) (hr : 1 ≤ e.chunk.refCount) :
    ∀ (n : Nat) (c : ChunkCache), c.lookup k = some e → (evictMany n c).lookup k = some e
  | 0, _, h => h
  | n + 1, c, h => lookup_evictMany k e hr n (evictOne c) (lookup_evictOne c k e h hr)

theorem key_of_lookup (c : ChunkCache) (k : RegionKey) (e : CacheEntry)
    (h : c.lookup k = some e) : e.key = k := by
  have := List.find?_some h
  simpa using this


theorem lookup_updateKey_self (c : ChunkCache) (k : RegionKey) (e : CacheEntry)
    (f : CacheEntry → CacheEntry) (hf : ∀ d, (f d).key = d.key)
    (h : c.lookup k = some e) :
    (updateKey k f c.entries).find? (fun d => decide (d.key = k)) = some (f e) := by
  have hk := key_of_lookup c k e h
  unfold lookup at h
  rw [find?_updateKey k k f hf, h]
  simp [hk]

theorem lookup_updateKey_other (c : ChunkCache) (k j : RegionKey) (e : CacheEntry)
    (f : CacheEntry → CacheEntry) (hf : ∀ d, (f d).key = d.key) (hjk : j ≠ k)
    (h : c.lookup k = some e) :
    (updateKey j f c.entries).find? (fun d => decide (d.key = k)) = some e := by
  have hk := key_of_lookup c k e h
  unfold lookup at h
  rw [find?_updateKey j k f hf, h]
  have : ¬ e.key = j := fun h2 => hjk (h2.symm.trans hk)
  simp [this]

theorem referenced_getOrBuild_self (builder : Builder) (c : ChunkCache) (k : RegionKey)
    (g gen others : Nat) (h : c.Referenced k g gen others) :
    (c.getOrBuild builder k).2.Referenced k g gen (others + 1) := by
  obtain ⟨e, he, hg, hgen, hr⟩ := h
  have h0 : ¬ (e.rebuild = true ∧ e.chunk.refCount = 0) := by
    intro hc
    omega
  unfold getOrBuild
  rw [he]
  simp only [h0, if_false]
  refine ⟨_, lookup_updateKey_self c k e _ (fun _ => rfl) he, hg, hgen, ?_⟩
  simp only
  omega

theorem referenced_getOrBuild_other (builder : Builder) (c : ChunkCache) (k j : RegionKey)
    (g gen others : Nat) (hjk : j ≠ k) (h : c.Referenced k g gen others) :
    (c.getOrBuild builder j).2.Referenced k g gen others := by
  obtain ⟨e, he, hg, hgen, hr⟩ := h
  have hkj : k ≠ j := fun h2 => hjk h2.symm
  unfold getOrBuild
  cases hl : c.lookup j with
  | none =>
    cases hb : builder j with
    | none => exact ⟨e, he, hg, hgen, hr⟩
    | some geo =>
      refine ⟨e, ?_, hg, hgen, hr⟩
      unfold lookup at he ⊢
      simp [List.find?_append, he]
  | some d =>
    by_cases hc : d.rebuild = true ∧ d.chunk.refCount = 0
    · simp only [hc, and_self, if_true]
      cases hb : builder j with
      | none =>
        refine ⟨e, ?_, hg, hgen, hr⟩
        unfold lookup at he ⊢
        simp only [find?_removeKey_of_ne j k hkj, he]
      | some geo =>
        refine ⟨e, ?_, hg, hgen, hr⟩
        unfold lookup at he ⊢
        simp [List.find?_append, find?_removeKey_of_ne j k hkj, he]
    · simp only [hc, if_false]
      exact ⟨e, lookup_updateKey_other c k j e _ (fun _ => rfl) hjk he, hg, hgen, hr⟩

theorem referenced_release_self (c : ChunkCache) (k : RegionKey) (g gen others : Nat)
    (h : c.Referenced k g gen (others + 1)) : (c.release k).Referenced k g gen others := by
  obtain ⟨e, he, hg, hgen, hr⟩ := h
  refine ⟨_, lookup_updateKey_self c k e _ (fun _ => rfl) he, hg, hgen, ?_⟩
  simp only
  omega

theorem referenced_release_other (c : ChunkCache) (k j : RegionKey) (g gen others : Nat)
    (hjk : j ≠ k) (h : c.Referenced k g gen others) :
    (c.release j).Referenced k g gen others := by
  obtain ⟨e, he, hg, hgen, hr⟩ := h
  exact ⟨e, lookup_updateKey_other c k j e _ (fun _ => rfl) hjk he, hg, hgen, hr⟩

theorem referenced_invalidate (c : ChunkCache) (k j : RegionKey) (g gen others : Nat)
    (h : c.Referenced k g gen others) : (c.invalidate j).Referenced k g gen others := by
  obtain ⟨e, he, hg, hgen, hr⟩ := h
  by_cases hjk : j = k
  · subst hjk
    exact ⟨_, lookup_updateKey_self c j e _ (fun _ => rfl) he, hg, hgen, hr⟩
  · exact ⟨e, lookup_updateKey_other c k j e _ (fun _ => rfl) hjk he, hg, hgen, hr⟩

theorem referenced_evictUnused (c : ChunkCache) (k : RegionKey) (budget g gen others : Nat)
    (h : c.Referenced k g gen others) : (c.evictUnused budget).Referenced k g gen others := by
  obtain ⟨e, he, hg, hgen, hr⟩ := h
  exact ⟨e, lookup_evictMany k e (by omega) _ c he, hg, hgen, hr⟩

theorem referenced_mono (c : ChunkCache) (k : RegionKey) (g gen a b : Nat) (hab : b ≤ a)
    (h : c.Referenced k g gen a) : c.Referenced k g gen b := by
  obtain ⟨e, he, hg, hgen, hr⟩ := h
  exact ⟨e, he, hg, hgen, by omega⟩

theorem referenced_runOps (builder : Builder) (k : RegionKey) (g gen : Nat) :
    ∀ (ops : List CacheOp) (c : ChunkCache) (others : Nat),
      c.Referenced k g gen others → keepsReference k others ops = true →
      ∀ n, (runOps builder (ops.take n) c).Referenced k g gen 0 := by
  intro ops
  induction ops with
  | nil =>
    intro c others h _ n
    simpa [runOps] using referenced_mono c k g gen others 0 (Nat.zero_le _) h
  | cons op ops ih =>
    intro c others h hk n
    cases n with
    | zero => simpa [runOps] using referenced_mono c k g gen others 0 (Nat.zero_le _) h
    | succ n =>
      simp only [List.take_succ_cons, runOps]
      cases op with
      | getOrBuild j =>
        simp only [keepsReference] at hk
        by_cases hjk : j = k
        · subst hjk
          simp only [if_true] at hk
          exact ih _ (others + 1) (referenced_getOrBuild_self builder c j g gen others h) hk n
        · simp only [hjk, if_false] at hk
          exact ih _ others (referenced_getOrBuild_other builder c k j g gen others hjk h) hk n
      | release j =>
        simp only [keepsReference] at hk
        by_cases hjk : j = k
        · subst hjk
          simp only [if_true, Bool.and_eq_true, decide_eq_true_eq] at hk
          obtain ⟨hne, hk2⟩ := hk
          have hs : others = (others - 1) + 1 := by omega
          rw [hs] at h
          exact ih _ (others - 1) (referenced_release_self c j g gen (others - 1) h) hk2 n
        · simp only [hjk, if_false] at hk
          exact ih _ others (referenced_release_other c k j g gen others hjk h) hk n
      | evictUnused budget =>
        simp only [keepsReference] at hk
        exact ih _ others (referenced_evictUnused c k budget g gen others h) hk n
      | invalidate j =>
        simp only [keepsReference] at hk
        exact ih _ others (referenced_invalidate c k j g gen others h) hk n

theorem referenced_of_getOrBuild (builder : Builder) (c : ChunkCache) (k : RegionKey)
    (ch : Chunk) (h : (c.getOrBuild builder k).1 = some ch) :
    (c.getOrBuild builder k).2.Referenced k ch.geometry ch.generation (ch.refCount - 1) := by
  unfold getOrBuild at h ⊢
  cases hl : c.lookup k with
  | none =>
    rw [hl] at h
    cases hb : builder k with
    | none => simp [hb] at h
    | some geo =>
      simp only [hb, Option.some.injEq] at h ⊢
      subst h
      refine ⟨{ key := k, chunk := { geometry := geo, refCount := 1, generation := c.clock },
                lastAccess := c.clock, building := false, rebuild := false },
              ?_, rfl, rfl, by simp⟩
      unfold lookup at hl ⊢
      simp [List.find?_append, hl]
  | some d =>
    rw [hl] at h
    by_cases hc : d.rebuild = true ∧ d.chunk.refCount = 0
    · simp only [hc, and_self, if_true] at h ⊢
      cases hb : builder k with
      | none => simp [hb] at h
      | some geo =>
        simp only [hb, Option.some.injEq] at h ⊢
        subst h
        refine ⟨{ key := k, chunk := { geometry := geo, refCount := 1, generation := c.clock },
                  lastAccess := c.clock, building := false, rebuild := false },
                ?_, rfl, rfl, by simp⟩
        unfold lookup
        simp [List.find?_append, find?_removeKey_self]
    · simp only [hc, if_false, Option.some.injEq] at h ⊢
      subst h
      exact ⟨_, lookup_updateKey_self c k d _ (fun _ => rfl) hl, rfl, rfl, by simp⟩

end ChunkCache

/-- The budget scenario of spec section 8 on the model.  With budget 3 and the
cells `A`, `B`, `C`, `D` all requested and held, eviction reclaims nothing; once
`A` is released and a fifth cell `E` is requested, eviction reclaims `A` and only
`A`. -/
theorem budget_three_scenario :
    ((runOps sampleBuilder
        [.getOrBuild ⟨0, 0, 0⟩, .getOrBuild ⟨1, 0, 0⟩, .getOrBuild ⟨2, 0, 0⟩,
         .getOrBuild ⟨3, 0, 0⟩, .evictUnused 3]
        { entries := [], clock := 0 }).entries.map (fun e => e.key.x)) = [0, 1, 2, 3] ∧
    ((runOps sampleBuilder
        [.getOrBuild ⟨0, 0, 0⟩, .getOrBuild ⟨1, 0, 0⟩, .getOrBuild ⟨2, 0, 0⟩,
         .getOrBuild ⟨3, 0, 0⟩, .evictUnused 3, .release ⟨0, 0, 0⟩, .getOrBuild ⟨4, 0, 0⟩,
         .evictUnused 3]
        { entries := [], clock := 0 }).entries.map (fun e => e.key.x)) = [1, 2, 3, 4] := by
  decide

/-- C4: a cached terrain cell is never evicted while it is referenced.  Let
`cacheCell(x, y)` return the chunk reference `ch`, and let `ops` be any sequence
of cache calls (get-or-build, release, evict-unused with any budget, invalidate,
on any keys) in which the caller's reference is kept: the only references to the
cell released are those the other clients hold.  Then after every initial
segment of `ops` the cache still maps the cell's key to that very chunk (same
geometry, same generation) with a nonzero reference count: no eviction has
removed it. -/
theorem cacheCell_chunk_stays_cached (builder : Builder) (lod : Nat) (x y : Int)
    (w : World) (ch : Chunk) (ops : List CacheOp)
    (hget : (World.cacheCell builder lod x y w).1 = some ch)
    (hkeep : keepsReference (World.cellKey lod x y) (ch.refCount - 1) ops = true) (n : Nat) :
    ∃ e, (runOps builder (ops.take n) (World.cacheCell builder lod x y w).2.mChunkManager).lookup
          (World.cellKey lod x y) = some e ∧
      e.chunk.geometry = ch.geometry ∧ e.chunk.generation = ch.generation ∧
      1 ≤ e.chunk.refCount := by
  have h1 := ChunkCache.referenced_of_getOrBuild builder w.mChunkManager
    (World.cellKey lod x y) ch hget
  have h2 := ChunkCache.referenced_runOps builder (World.cellKey lod x y) ch.geometry
    ch.generation ops _ _ h1 hkeep n
  obtain ⟨e, he, hg, hgen, hr⟩ := h2
  exact ⟨e, he, hg, hgen, by omega⟩

/-- C4 at the sample world and the sample run: the hypotheses hold, the chunk of
cell `(2, 3)` is still cached at the end, and the other cell has been reclaimed. -/
theorem cacheCell_chunk_stays_cached_witness :
    (World.cacheCell sampleBuilder 0 2 3 sampleWorld).1 =
      some { geometry := 5, refCount := 1, generation := 0 } ∧
    keepsReference (World.cellKey 0 2 3) 0 sampleOps = true ∧
    (∃ e, (runOps sampleBuilder (List.take 7 sampleOps)
          (World.cacheCell sampleBuilder 0 2 3 sampleWorld).2.mChunkManager).lookup
            (World.cellKey 0 2 3) = some e ∧
      e.chunk.geometry = 5 ∧ e.chunk.generation = 0 ∧ 1 ≤ e.chunk.refCount) ∧
    (runOps sampleBuilder sampleOps
        (World.cacheCell sampleBuilder 0 2 3 sampleWorld).2.mChunkManager).entries.length = 1 :=
  ⟨rfl, rfl,
   cacheCell_chunk_stays_cached sampleBuilder 0 2 3 sampleWorld
     { geometry := 5, refCount := 1, generation := 0 } sampleOps rfl rfl 7,
   by decide⟩

end Terrain

/-! ## Properties of `MainDialog::changePage` -/

namespace Launcher

/-- C8: switching from Data Files to Play copies the profile selection.  For every
dialog state (wired as the pages set it up), after `changePage(current, previous)`
with `previous` labelled "Data Files" and `current` labelled "Play", the Play
page's profile list and selected index equal those of the Data Files page, whose
list and index are unchanged. -/
theorem changePage_dataFiles_to_play (d : MainDialog) (current previous : QListWidgetItem)
    (hprev : previous.text = "Data Files") (hcur : current.text = "Play")
    (hd : d.Wired) :
    (d.changePage (some current) (some previous)).mPlayPage.mProfilesModel =
      d.mDataFilesPage.mProfilesModel ∧
    (d.changePage (some current) (some previous)).mPlayPage.mProfilesComboBox.currentIndex =
      d.mDataFilesPage.mProfilesComboBox.currentIndex ∧
    (d.changePage (some current) (some previous)).mDataFilesPage.mProfilesModel =
      d.mDataFilesPage.mProfilesModel ∧
    (d.changePage (some current) (some previous)).mDataFilesPage.mProfilesComboBox.currentIndex =
      d.mDataFilesPage.mProfilesComboBox.currentIndex := by
  obtain ⟨hp, hf, hlo, hhi⟩ := hd
  have hne : ¬ ("Data Files" = "Play") := by decide
  unfold MainDialog.changePage
  simp only [hprev, hcur, and_self, if_true, hne, false_and, if_false,
    MainDialog.setStringList, MainDialog.stringList, MainDialog.resetCombo, hp, hf,
    MainDialog.setCurrentIndex]
  by_cases h0 : 0 ≤ d.mDataFilesPage.mProfilesComboBox.currentIndex
  · simp [h0, hhi]
  · have : d.mDataFilesPage.mProfilesComboBox.currentIndex = -1 := by omega
    simp [h0, this]

/-- C8 at the sample dialog: the hypotheses hold there and the Play page ends
with the three profiles and index `1`. -/
theorem changePage_dataFiles_to_play_witness :
    sampleDialog.Wired ∧
    (sampleDialog.changePage (some { id := 0, text := "Play" })
        (some { id := 2, text := "Data Files" })).mPlayPage.mProfilesModel =
      sampleDialog.mDataFilesPage.mProfilesModel ∧
    (sampleDialog.changePage (some { id := 0, text := "Play" })
        (some { id := 2, text := "Data Files" })).mPlayPage.mProfilesComboBox.currentIndex =
      sampleDialog.mDataFilesPage.mProfilesComboBox.currentIndex :=
  have hw : sampleDialog.Wired := by
    simp [MainDialog.Wired, sampleDialog]
  ⟨hw,
   (changePage_dataFiles_to_play sampleDialog { id := 0, text := "Play" }
      { id := 2, text := "Data Files" } rfl rfl hw).1,
   (changePage_dataFiles_to_play sampleDialog { id := 0, text := "Play" }
      { id := 2, text := "Data Files" } rfl rfl hw).2.1⟩

end Launcher

/-! ## Properties of `CellRender::show` -/

namespace MWRender

namespace SceneNode

theorem id_setVisibleAll (v : Bool) (n : SceneNode) : (setVisibleAll v n).id = n.id := by
  cases n
  simp [setVisibleAll, id]

theorem map_id_setVisibleAllList (v : Bool) :
    ∀ ns : List SceneNode, (setVisibleAllList v ns).map id = ns.map id
  | [] => by simp [setVisibleAllList]
  | n :: ns => by
    simp [setVisibleAllList, id_setVisibleAll, map_id_setVisibleAllList v ns]

theorem id_modify_setVisibleAll (b : Nat) (v : Bool) (n : SceneNode) :
    (modify b (setVisibleAll v) n).id = n.id := by
  cases n with
  | mk i p s o objs ch =>
    by_cases h : i = b
    · simp [modify, h, setVisibleAll, id]
    · simp [modify, h, id]

theorem map_id_modifyList_setVisibleAll (b : Nat) (v : Bool) :
    ∀ ns : List SceneNode, (modifyList b (setVisibleAll v) ns).map id = ns.map id
  | [] => by simp [modifyList]
  | n :: ns => by
    simp [modifyList, id_modify_setVisibleAll, map_id_modifyList_setVisibleAll b v ns]

theorem childIds_modify_setVisibleAll (b : Nat) (v : Bool) (n : SceneNode) :
    (modify b (setVisibleAll v) n).childIds = n.childIds := by
  cases n with
  | mk i p s o objs ch =>
    by_cases h : i = b
    · simp [modify, h, setVisibleAll, childIds, children, map_id_setVisibleAllList]
    · simp [modify, h, childIds, children, map_id_modifyList_setVisibleAll]

mutual
theorem ids_setVisibleAll (v : Bool) : ∀ n : SceneNode, ids (setVisibleAll v n) = ids n
  | .mk i p s o objs ch => by
    simp [setVisibleAll, ids, idsList_setVisibleAllList v ch]
theorem idsList_setVisibleAllList (v : Bool) :
    ∀ ns : List SceneNode, idsList (setVisibleAllList v ns) = idsList ns
  | [] => by simp [setVisibleAllList]
  | n :: ns => by
    simp [setVisibleAllList, idsList, ids_setVisibleAll v n, idsList_setVisibleAllList v ns]
end

mutual
theorem ids_modify_setVisibleAll (b : Nat) (v : Bool) :
    ∀ n : SceneNode, ids (modify b (setVisibleAll v) n) = ids n
  | .mk i p s o objs ch => by
    by_cases h : i = b
    · simp only [modify, h, if_true]
      exact ids_setVisibleAll v _
    · simp [modify, h, ids, idsList_modifyList_setVisibleAll b v ch]
theorem idsList_modifyList_setVisibleAll (b : Nat) (v : Bool) :
    ∀ ns : List SceneNode, idsList (modifyList b (setVisibleAll v) ns) = idsList ns
  | [] => by simp [modifyList]
  | n :: ns => by
    simp [modifyList, idsList, ids_modify_setVisibleAll b v n,
      idsList_modifyList_setVisibleAll b v ns]
end

mutual
theorem meshes_setVisibleAll (v : Bool) : ∀ n : SceneNode, meshes (setVisibleAll v n) = meshes n
  | .mk i p s o objs ch => by
    simp [setVisibleAll, meshes, meshesList_setVisibleAllList v ch, Function.comp_def]
theorem meshesList_setVisibleAllList (v : Bool) :
    ∀ ns : List SceneNode, meshesList (setVisibleAllList v ns) = meshesList ns
  | [] => by simp [setVisibleAllList]
  | n :: ns => by
    simp [setVisibleAllList, meshesList, meshes_setVisibleAll v n,
      meshesList_setVisibleAllList v ns]
end

mutual
theorem meshes_modify_setVisibleAll (b : Nat) (v : Bool) :
    ∀ n : SceneNode, meshes (modify b (setVisibleAll v) n) = meshes n
  | .mk i p s o objs ch => by
    by_cases h : i = b
    · simp only [modify, h, if_true]
      exact meshes_setVisibleAll v _
    · simp [modify, h, meshes, meshesList_modifyList_setVisibleAll b v ch]
theorem meshesList_modifyList_setVisibleAll (b : Nat) (v : Bool) :
    ∀ ns : List SceneNode, meshesList (modifyList b (setVisibleAll v) ns) = meshesList ns
  | [] => by simp [modifyList]
  | n :: ns => by
    simp [modifyList, meshesList, meshes_modify_setVisibleAll b v n,
      meshesList_modifyList_setVisibleAll b v ns]
end

mutual
theorem allVisible_setVisibleAll : ∀ n : SceneNode, allVisible (setVisibleAll true n) = true
  | .mk i p s o objs ch => by
    simp [setVisibleAll, allVisible, allVisibleList_setVisibleAllList ch]
theorem allVisibleList_setVisibleAllList :
    ∀ ns : List SceneNode, allVisibleList (setVisibleAllList true ns) = true
  | [] => by simp [setVisibleAllList, allVisibleList]
  | n :: ns => by
    simp [setVisibleAllList, allVisibleList, allVisible_setVisibleAll n,
      allVisibleList_setVisibleAllList ns]
end

mutual
theorem find?_modify_setVisibleAll (b : Nat) (v : Bool) :
    ∀ n : SceneNode,
      find? b (modify b (setVisibleAll v) n) = (find? b n).map (setVisibleAll v)
  | .mk i p s o objs ch => by
    by_cases h : i = b
    · simp [modify, h, setVisibleAll, find?]
    · simp [modify, h, find?, findList?_modifyList_setVisibleAll b v ch]
theorem findList?_modifyList_setVisibleAll (b : Nat) (v : Bool) :
    ∀ ns : List SceneNode,
      findList? b (modifyList b (setVisibleAll v) ns) = (findList? b ns).map (setVisibleAll v)
  | [] => by simp [modifyList, findList?]
  | n :: ns => by
    simp only [modifyList, findList?, find?_modify_setVisibleAll b v n,
      findList?_modifyList_setVisibleAll b v ns]
    cases find? b n <;> simp
end

end SceneNode

/-- The first `show` of the sample cell, for contrast: a cell node is created
under the root and one node per reference under it, doors before statics, each
with its mesh loaded and attached. -/
theorem show_unloaded_sample :
    (sampleUnloaded.«show» CellRender.insertMeshes).base = some 1 ∧
    (sampleUnloaded.«show» CellRender.insertMeshes).scene.root.ids = [0, 1, 2, 3] ∧
    (sampleUnloaded.«show» CellRender.insertMeshes).scene.root.childIds = [1] ∧
    (sampleUnloaded.«show» CellRender.insertMeshes).scene.root.meshes =
      ["meshes\\door.nif", "meshes\\wall.nif"] ∧
    (sampleUnloaded.«show» CellRender.insertMeshes).scene.loaded =
      ["meshes\\door.nif", "meshes\\wall.nif"] ∧
    ((sampleUnloaded.«show» CellRender.insertMeshes).scene.root.find? 2).map
        SceneNode.orientation =
      some (.mul (.mul (.angleAxis 2147483648 .unitX) (.angleAxis 2147483648 .unitY))
        (.angleAxis 2147483648 .unitZ)) := by
  decide

/-- C6: `CellRender::show` on an already loaded cell only makes it visible.  For
every renderer whose `base` is a node `b`: `base` still points to `b`; the node
`b`, where it is in the scene, has every entity of its subtree visible; no scene
node is created (the nodes of the scene, the children of the scene root and the
fresh-identity counter are the same); no mesh is inserted (the attached meshes
and the loaded meshes are the same); and no reference list is traversed (the
result is the same whatever `insertCellRefList` is, the cell data untouched). -/
theorem show_loaded_only_makes_visible {L : Type}
    (insertCellRefList : L → CellRender L → CellRender L) (cr : CellRender L) (b : Nat)
    (hbase : cr.base = some b) :
    (cr.«show» insertCellRefList).base = some b ∧
    (∀ n, cr.scene.root.find? b = some n →
      ∃ m, (cr.«show» insertCellRefList).scene.root.find? b = some m ∧
        m.id = n.id ∧ m.allVisible = true) ∧
    (cr.«show» insertCellRefList).scene.root.ids = cr.scene.root.ids ∧
    (cr.«show» insertCellRefList).scene.root.childIds = cr.scene.root.childIds ∧
    (cr.«show» insertCellRefList).scene.nextId = cr.scene.nextId ∧
    (cr.«show» insertCellRefList).scene.root.meshes = cr.scene.root.meshes ∧
    (cr.«show» insertCellRefList).scene.loaded = cr.scene.loaded ∧
    (∀ other : L → CellRender L → CellRender L,
      cr.«show» other = cr.«show» insertCellRefList) := by
  have hshow : ∀ f : L → CellRender L → CellRender L,
      cr.«show» f = { cr with scene := cr.scene.setVisible b true } := by
    intro f
    simp [CellRender.«show», hbase]
  rw [hshow insertCellRefList]
  refine ⟨hbase, ?_, ?_, ?_, rfl, ?_, rfl, ?_⟩
  · intro n hn
    refine ⟨SceneNode.setVisibleAll true n, ?_, SceneNode.id_setVisibleAll true n,
      SceneNode.allVisible_setVisibleAll n⟩
    simp [Scene.setVisible, SceneNode.find?_modify_setVisibleAll, hn]
  · exact SceneNode.ids_modify_setVisibleAll b true cr.scene.root
  · exact SceneNode.childIds_modify_setVisibleAll b true cr.scene.root
  · exact SceneNode.meshes_modify_setVisibleAll b true cr.scene.root
  · intro other
    exact hshow other

/-- C6 at the sample renderer, whose cell node `1` is loaded and hidden: after
`show` the node is found with its door mesh visible, and the scene still has the
nodes `0, 1, 2`. -/
theorem show_loaded_only_makes_visible_witness :
    sampleLoaded.base = some 1 ∧
    (sampleLoaded.«show» CellRender.insertMeshes).base = some 1 ∧
    (sampleLoaded.«show» CellRender.insertMeshes).scene.root.ids = [0, 1, 2] ∧
    ((sampleLoaded.«show» CellRender.insertMeshes).scene.root.find? 1).map SceneNode.allVisible
      = some true ∧
    (sampleLoaded.scene.root.find? 1).map SceneNode.allVisible = some false :=
  ⟨rfl,
   (show_loaded_only_makes_visible CellRender.insertMeshes sampleLoaded 1 rfl).1,
   (show_loaded_only_makes_visible CellRender.insertMeshes sampleLoaded 1 rfl).2.2.1.trans rfl,
   by decide, by decide⟩

end MWRender

/-! ## Properties of `CellRender::insertMesh` -/

namespace MWRender

namespace ExactQuaternion
variable {R : Type} [CommRing R]

theorem rotate_eq_conjugation (q : ExactQuaternion R) (v : ExactVector3 R) (hq : q.norm = 1) :
    q.rotate v = q.conjugation v := by
  obtain ⟨qw, qx, qy, qz⟩ := q
  obtain ⟨vx, vy, vz⟩ := v
  simp only [norm] at hq
  simp only [rotate, conjugation, mul, ExactVector3.crossProduct, ExactVector3.mk.injEq]
  refine ⟨?_, ?_, ?_⟩
  · linear_combination (-vx) * hq
  · linear_combination (-vy) * hq
  · linear_combination (-vz) * hq

theorem conjugation_mul (p q : ExactQuaternion R) (v : ExactVector3 R) :
    (mul p q).conjugation v = p.conjugation (q.conjugation v) := by
  obtain ⟨pw, px, py, pz⟩ := p
  obtain ⟨qw, qx, qy, qz⟩ := q
  obtain ⟨vx, vy, vz⟩ := v
  simp only [conjugation, mul, ExactVector3.mk.injEq]
  refine ⟨?_, ?_, ?_⟩ <;> ring

theorem norm_mul (p q : ExactQuaternion R) : (mul p q).norm = p.norm * q.norm := by
  obtain ⟨pw, px, py, pz⟩ := p
  obtain ⟨qw, qx, qy, qz⟩ := q
  simp only [norm, mul]
  ring

theorem rotate_mul (p q : ExactQuaternion R) (v : ExactVector3 R)
    (hp : p.norm = 1) (hq : q.norm = 1) :
    (mul p q).rotate v = p.rotate (q.rotate v) := by
  have hpq : (mul p q).norm = 1 := by rw [norm_mul, hp, hq, one_mul]
  rw [rotate_eq_conjugation _ _ hpq, conjugation_mul, rotate_eq_conjugation q v hq,
    rotate_eq_conjugation p _ hp]

theorem norm_fromAngleAxis (c s : R) (h : c ^ 2 + s ^ 2 = 1) (axis : Axis) :
    (fromAngleAxis c s (axis.toVector : ExactVector3 R)).norm = 1 := by
  cases axis <;> simp only [fromAngleAxis, norm, Axis.toVector] <;> linear_combination h

end ExactQuaternion

namespace SceneNode

theorem find?_of_id (t : Nat) (n : SceneNode) (h : n.id = t) : find? t n = some n := by
  cases n with
  | mk i p s o objs ch =>
    simp only [id] at h
    simp [find?, h]

mutual
theorem find?_modify_of_id (t : Nat) (f : SceneNode → SceneNode)
    (hf : ∀ n, (f n).id = n.id) :
    ∀ n : SceneNode, find? t (modify t f n) = (find? t n).map f
  | .mk i p s o objs ch => by
    by_cases h : i = t
    · have hid : (f (.mk i p s o objs ch)).id = t := (hf _).trans h
      simp only [modify, h, if_true, find?, Option.map_some']
      rw [h] at hid
      exact find?_of_id t _ hid
    · simp [modify, h, find?, findList?_modifyList_of_id t f hf ch]
theorem findList?_modifyList_of_id (t : Nat) (f : SceneNode → SceneNode)
    (hf : ∀ n, (f n).id = n.id) :
    ∀ ns : List SceneNode, findList? t (modifyList t f ns) = (findList? t ns).map f
  | [] => by simp [modifyList, findList?]
  | n :: ns => by
    simp only [modifyList, findList?, find?_modify_of_id t f hf n,
      findList?_modifyList_of_id t f hf ns]
    cases find? t n <;> simp
end

mutual
theorem find?_none_of_not_mem (t : Nat) :
    ∀ n : SceneNode, t ∉ ids n → find? t n = none
  | .mk i p s o objs ch => by
    intro h
    simp only [ids, List.mem_cons, not_or] at h
    have hi : ¬ i = t := fun h2 => h.1 h2.symm
    simp [find?, hi, findList?_none_of_not_mem t ch h.2]
theorem findList?_none_of_not_mem (t : Nat) :
    ∀ ns : List SceneNode, t ∉ idsList ns → findList? t ns = none
  | [] => by simp [findList?]
  | n :: ns => by
    intro h
    simp only [idsList, List.mem_append, not_or] at h
    simp [findList?, find?_none_of_not_mem t n h.1, findList?_none_of_not_mem t ns h.2]
end

mutual
theorem modify_of_find?_none (b : Nat) (f : SceneNode → SceneNode) :
    ∀ n : SceneNode, find? b n = none → modify b f n = n
  | .mk i p s o objs ch => by
    intro h
    by_cases hi : i = b
    · simp [find?, hi] at h
    · simp only [find?, hi, if_false] at h
      simp [modify, hi, modifyList_of_findList?_none b f ch h]
theorem modifyList_of_findList?_none (b : Nat) (f : SceneNode → SceneNode) :
    ∀ ns : List SceneNode, findList? b ns = none → modifyList b f ns = ns
  | [] => by simp [modifyList]
  | n :: ns => by
    intro h
    simp only [findList?] at h
    cases hn : find? b n with
    | some r => simp [hn] at h
    | none =>
      simp only [hn] at h
      simp [modifyList, modify_of_find?_none b f n hn, modifyList_of_findList?_none b f ns h]
end

theorem findList?_append_of_none (t : Nat) (ms : List SceneNode) :
    ∀ ns : List SceneNode, findList? t ns = none → findList? t (ns ++ ms) = findList? t ms
  | [] => by simp
  | n :: ns => by
    intro h
    simp only [findList?] at h
    cases hn : find? t n with
    | some r => simp [hn] at h
    | none =>
      simp only [hn] at h
      simp [findList?, hn, findList?_append_of_none t ms ns h]

mutual
theorem find?_modify_addChild (b : Nat) (child : SceneNode) (f : SceneNode → SceneNode)
    (hf : ∀ i p s o objs ch, f (.mk i p s o objs ch) = .mk i p s o objs (ch ++ [child])) :
    ∀ n : SceneNode, child.id ∉ ids n → (∃ r, find? b n = some r) →
      find? child.id (modify b f n) = some child
  | .mk i p s o objs ch => by
    intro hfresh hin
    simp only [ids, List.mem_cons, not_or] at hfresh
    have hi : ¬ i = child.id := fun h2 => hfresh.1 h2.symm
    by_cases hb : i = b
    · simp only [modify, hb, if_true, hf]
      rw [← hb]
      simp only [find?, hi, if_false]
      rw [findList?_append_of_none _ _ _ (findList?_none_of_not_mem _ ch hfresh.2)]
      simp only [findList?, find?_of_id child.id child rfl]
    · simp only [find?, hb, if_false] at hin
      simp only [modify, hb, if_false, find?, hi]
      exact findList?_modifyList_addChild b child f hf ch hfresh.2 hin
theorem findList?_modifyList_addChild (b : Nat) (child : SceneNode) (f : SceneNode → SceneNode)
    (hf : ∀ i p s o objs ch, f (.mk i p s o objs ch) = .mk i p s o objs (ch ++ [child])) :
    ∀ ns : List SceneNode, child.id ∉ idsList ns → (∃ r, findList? b ns = some r) →
      findList? child.id (modifyList b f ns) = some child
  | [] => by
    intro _ hin
    simp [findList?] at hin
  | n :: ns => by
    intro hfresh hin
    simp only [idsList, List.mem_append, not_or] at hfresh
    simp only [modifyList, findList?]
    cases hn : find? b n with
    | some r =>
      rw [find?_modify_addChild b child f hf n hfresh.1 ⟨r, hn⟩]
    | none =>
      simp only [findList?, hn] at hin
      rw [modify_of_find?_none b f n hn, find?_none_of_not_mem _ n hfresh.1]
      exact findList?_modifyList_addChild b child f hf ns hfresh.2 hin
end

end SceneNode

/-- C7: `CellRender::insertMesh` rotates first around Z, then Y, then X.  For every
`CellRef` with rotation angles `(rx, ry, rz)`, in a renderer whose `base` is a
node of the scene and whose scene hands out a fresh node identity, `insertMesh`
succeeds and the node it creates has as orientation the quaternion product
`X(-rx) * Y(-ry) * Z(-rz)` of the rotations by the negated angles about the unit
X, Y and Z axes.  Read in exact arithmetic (over any commutative ring, with a
cosine and a sine of the half angles whose squares add up to one), applying that
orientation to a vector is applying the Z rotation first, then the Y rotation,
then the X rotation. -/
theorem insertMesh_orientation_z_y_x {L R : Type} [CommRing R]
    (cosHalf sinHalf : Float32 → R) (htrig : ∀ a, cosHalf a ^ 2 + sinHalf a ^ 2 = 1)
    (mesh : String) (ref : CellRef) (cr : CellRender L) (b : Nat)
    (hbase : cr.base = some b) (hin : ∃ r, cr.scene.root.find? b = some r)
    (hfresh : cr.scene.nextId ∉ cr.scene.root.ids) :
    ∃ cr1 node, CellRender.insertMesh mesh ref cr = some cr1 ∧
      cr1.scene.root.find? cr.scene.nextId = some node ∧
      node.id = cr.scene.nextId ∧
      node.orientation =
        Quaternion.mul
          (Quaternion.mul (Quaternion.angleAxis (negFloat ref.pos.rot.1) Axis.unitX)
            (Quaternion.angleAxis (negFloat ref.pos.rot.2.1) Axis.unitY))
          (Quaternion.angleAxis (negFloat ref.pos.rot.2.2) Axis.unitZ) ∧
      ∀ v : ExactVector3 R,
        (node.orientation.toExact cosHalf sinHalf).rotate v =
          ((Quaternion.angleAxis (negFloat ref.pos.rot.1) Axis.unitX).toExact
              cosHalf sinHalf).rotate
            (((Quaternion.angleAxis (negFloat ref.pos.rot.2.1) Axis.unitY).toExact
                cosHalf sinHalf).rotate
              (((Quaternion.angleAxis (negFloat ref.pos.rot.2.2) Axis.unitZ).toExact
                  cosHalf sinHalf).rotate v)) := by
  have hchild : SceneNode.find? cr.scene.nextId (cr.scene.createChildSceneNode b).2.root =
      some (SceneNode.mk cr.scene.nextId ⟨zeroFloat, zeroFloat, zeroFloat⟩
        ⟨oneFloat, oneFloat, oneFloat⟩ Quaternion.identity [] []) :=
    SceneNode.find?_modify_addChild b
      (SceneNode.mk cr.scene.nextId ⟨zeroFloat, zeroFloat, zeroFloat⟩
        ⟨oneFloat, oneFloat, oneFloat⟩ Quaternion.identity [] [])
      _ (fun _ _ _ _ _ _ => rfl) cr.scene.root hfresh hin
  have hins : CellRender.insertMesh mesh ref cr = some
      { cr with
        scene :=
          Scene.attachObject (Scene.createChildSceneNode b cr.scene).1 (Scene.createEntity mesh)
            (Scene.nifLoad mesh
              (Scene.setOrientation (Scene.createChildSceneNode b cr.scene).1
                (Quaternion.mul
                  (Quaternion.mul (Quaternion.angleAxis (negFloat ref.pos.rot.1) Axis.unitX)
                    (Quaternion.angleAxis (negFloat ref.pos.rot.2.1) Axis.unitY))
                  (Quaternion.angleAxis (negFloat ref.pos.rot.2.2) Axis.unitZ))
                (Scene.setScale (Scene.createChildSceneNode b cr.scene).1
                  ⟨ref.scale, ref.scale, ref.scale⟩
                  (Scene.setPosition (Scene.createChildSceneNode b cr.scene).1
                    ⟨ref.pos.pos.1, ref.pos.pos.2.1, ref.pos.pos.2.2⟩
                    (Scene.createChildSceneNode b cr.scene).2)))) } := by
    simp only [CellRender.insertMesh, hbase]
  refine ⟨_,
    SceneNode.mk cr.scene.nextId ⟨ref.pos.pos.1, ref.pos.pos.2.1, ref.pos.pos.2.2⟩
      ⟨ref.scale, ref.scale, ref.scale⟩
      (Quaternion.mul
        (Quaternion.mul (Quaternion.angleAxis (negFloat ref.pos.rot.1) Axis.unitX)
          (Quaternion.angleAxis (negFloat ref.pos.rot.2.1) Axis.unitY))
        (Quaternion.angleAxis (negFloat ref.pos.rot.2.2) Axis.unitZ))
      [Scene.createEntity mesh] [],
    hins, ?_, ?_, ?_, ?_⟩
  · have hid : (Scene.createChildSceneNode b cr.scene).1 = cr.scene.nextId := rfl
    simp only [Scene.attachObject, Scene.nifLoad, Scene.setOrientation, Scene.setScale,
      Scene.setPosition, hid]
    rw [SceneNode.find?_modify_of_id _ _ (fun n => by cases n; rfl),
      SceneNode.find?_modify_of_id _ _ (fun n => by cases n; rfl),
      SceneNode.find?_modify_of_id _ _ (fun n => by cases n; rfl),
      SceneNode.find?_modify_of_id _ _ (fun n => by cases n; rfl), hchild]
    rfl
  · rfl
  · rfl
  · intro v
    have hx := ExactQuaternion.norm_fromAngleAxis _ _ (htrig (negFloat ref.pos.rot.1)) Axis.unitX
    have hy := ExactQuaternion.norm_fromAngleAxis _ _ (htrig (negFloat ref.pos.rot.2.1)) Axis.unitY
    have hz := ExactQuaternion.norm_fromAngleAxis _ _ (htrig (negFloat ref.pos.rot.2.2)) Axis.unitZ
    have hxy : (ExactQuaternion.mul
        (ExactQuaternion.fromAngleAxis (cosHalf (negFloat ref.pos.rot.1))
          (sinHalf (negFloat ref.pos.rot.1)) (Axis.unitX.toVector : ExactVector3 R))
        (ExactQuaternion.fromAngleAxis (cosHalf (negFloat ref.pos.rot.2.1))
          (sinHalf (negFloat ref.pos.rot.2.1)) (Axis.unitY.toVector : ExactVector3 R))).norm = 1 := by
      rw [ExactQuaternion.norm_mul, hx, hy, one_mul]
    simp only [SceneNode.orientation, Quaternion.toExact]
    rw [ExactQuaternion.rotate_mul _ _ _ hxy hz, ExactQuaternion.rotate_mul _ _ _ hx hy]

/-- C7 at the sample renderer and the sample reference: the hypotheses hold, the
node `3` is created with the product of the three negated-angle rotations as
orientation, and on the vector `(1, 0, 0)` the orientation and the three
rotations applied Z, Y, X in turn give the same vector, with value
`(49/625, -8232/15625, 13224/15625)`. -/
theorem insertMesh_orientation_z_y_x_witness :
    sampleLoaded.base = some 1 ∧
    (∃ r, sampleLoaded.scene.root.find? 1 = some r) ∧
    sampleLoaded.scene.nextId ∉ sampleLoaded.scene.root.ids ∧
    (∀ a : Float32, sampleCosHalf a ^ 2 + sampleSinHalf a ^ 2 = 1) ∧
    (∃ cr1 node, CellRender.insertMesh "meshes\\wall.nif" sampleRef sampleLoaded = some cr1 ∧
      cr1.scene.root.find? 3 = some node ∧
      node.orientation =
        Quaternion.mul
          (Quaternion.mul (Quaternion.angleAxis 3212836864 Axis.unitX)
            (Quaternion.angleAxis 3221225472 Axis.unitY))
          (Quaternion.angleAxis 3225419776 Axis.unitZ) ∧
      (node.orientation.toExact sampleCosHalf sampleSinHalf).rotate ⟨1, 0, 0⟩ =
        ((Quaternion.angleAxis 3212836864 Axis.unitX).toExact sampleCosHalf
            sampleSinHalf).rotate
          (((Quaternion.angleAxis 3221225472 Axis.unitY).toExact sampleCosHalf
              sampleSinHalf).rotate
            (((Quaternion.angleAxis 3225419776 Axis.unitZ).toExact sampleCosHalf
                sampleSinHalf).rotate ⟨1, 0, 0⟩))) ∧
    ((Quaternion.angleAxis 3212836864 Axis.unitX).toExact sampleCosHalf sampleSinHalf).rotate
        (((Quaternion.angleAxis 3221225472 Axis.unitY).toExact sampleCosHalf
            sampleSinHalf).rotate
          (((Quaternion.angleAxis 3225419776 Axis.unitZ).toExact sampleCosHalf
              sampleSinHalf).rotate ⟨1, 0, 0⟩)) =
      (⟨49 / 625, -8232 / 15625, 13224 / 15625⟩ : ExactVector3 ℚ) :=
  have hb : sampleLoaded.base = some 1 := rfl
  have hin : ∃ r, sampleLoaded.scene.root.find? 1 = some r := ⟨_, rfl⟩
  have hfresh : sampleLoaded.scene.nextId ∉ sampleLoaded.scene.root.ids := by decide
  have htrig : ∀ a : Float32, sampleCosHalf a ^ 2 + sampleSinHalf a ^ 2 = 1 := by
    intro a
    simp only [sampleCosHalf, sampleSinHalf]
    norm_num
  ⟨hb, hin, hfresh, htrig,
    match insertMesh_orientation_z_y_x sampleCosHalf sampleSinHalf htrig
        "meshes\\wall.nif" sampleRef sampleLoaded 1 hb hin hfresh with
    | ⟨cr1, node, h1, h2, _, h4, h5⟩ => ⟨cr1, node, h1, h2, h4, h5 ⟨1, 0, 0⟩⟩,
    by
      simp only [Quaternion.toExact, ExactQuaternion.fromAngleAxis, ExactQuaternion.rotate,
        Axis.toVector, ExactVector3.crossProduct, sampleCosHalf, sampleSinHalf,
        ExactVector3.mk.injEq]
      norm_num⟩

end MWRender
